import Mathlib

/-!
Verification of the steemwatch eventstream connection manager
(src/server/server.go, package eventstream) and the transfer event miner
(src/unnamed/part_000, package events).

The manager owns a map from user identity to a connection record, a closed
flag and a lock.  The lock-protected critical sections of the Go code are
embedded as atomic state transformers on an explicit state; connection
objects are named by identifiers and their Close calls are counted, so that
double closes are observable.
-/

namespace Steemwatch

/-- User identifier: the string key of the connection map (user.Id). -/
abbrev UserId := String

/-- Identifier naming one websocket connection object, fresh per accepted
connection, so the physical identity of connections can be tracked. -/
abbrev ConnId := Nat

/-- Wire message handed to WriteJSON, kept abstract as a string. -/
abbrev Msg := String

/-- Errors returned by connection operations: a base error, or an error
wrapped with a context message as produced by errors.Wrap. -/
inductive Err where
  | base (msg : String) : Err
  | wrap (ctx : String) (cause : Err) : Err
deriving DecidableEq, Repr

/-- Whether an error carries a wrapping context message. -/
def Err.isWrapped : Err → Bool
  | .base _ => false
  | .wrap _ _ => true

/-- Lookup in the user-to-connection association list (Go map read). -/
def mapLookup (k : UserId) : List (UserId × ConnId) → Option ConnId
  | [] => none
  | (k2, v) :: rest => if k2 = k then some v else mapLookup k rest

/-- Removal of a key from the association list (Go map delete). -/
def mapErase (k : UserId) : List (UserId × ConnId) → List (UserId × ConnId)
  | [] => []
  | (k2, v) :: rest =>
    if k2 = k then mapErase k rest else (k2, v) :: mapErase k rest

/-- Update of a key in the association list (Go map assignment): the key is
bound to the new value and any previous binding disappears. -/
def mapInsert (k : UserId) (v : ConnId) (m : List (UserId × ConnId)) :
    List (UserId × ConnId) :=
  (k, v) :: mapErase k m

/-- Number of entries carrying a given key. -/
def countKey (k : UserId) : List (UserId × ConnId) → Nat
  | [] => 0
  | (k2, _) :: rest =>
    if k2 = k then countKey k rest + 1 else countKey k rest

/-- State of the Manager: the connections map, the closed flag, and for every
connection object the number of times Close has been called on it. -/
structure ManagerState where
  connections : List (UserId × ConnId)
  closed : Bool
  closeCount : ConnId → Nat

/-- One call of conn.Close() on connection c, observed as a counter bump. -/
def closeConn (c : ConnId) (counts : ConnId → Nat) : ConnId → Nat :=
  fun c2 => if c2 = c then counts c2 + 1 else counts c2

/-- Close every connection in the list, in order (the range loop of
Manager.Close). -/
def closeAll : List ConnId → (ConnId → Nat) → ConnId → Nat
  | [], counts => counts
  | c :: rest, counts => closeAll rest (closeConn c counts)

/-- The registration critical section of the websocket handler goroutine in
Manager.Bind (server.go lines 249 to 269), together with the deferred
conn.Close that fires when the goroutine returns at once because the manager
is closed.  If the manager is closed, the new connection is closed and the
state is otherwise untouched; otherwise an existing record for the user has
its connection closed first (eviction) and the new record is inserted. -/
def bindRegister (userID : UserId) (conn : ConnId) (s : ManagerState) :
    ManagerState :=
  if s.closed then
    { s with closeCount := closeConn conn s.closeCount }
  else
    match mapLookup userID s.connections with
    | some old =>
        { s with connections := mapInsert userID conn s.connections,
                 closeCount := closeConn old s.closeCount }
    | none =>
        { s with connections := mapInsert userID conn s.connections }

/-- The read failure branch of the detection loop in Manager.Bind (server.go
lines 271 to 282), together with the deferred conn.Close on goroutine exit:
the map entry of the user is deleted unconditionally and the reader closes
its own connection. -/
def readerOnFailure (userID : UserId) (conn : ConnId) (s : ManagerState) :
    ManagerState :=
  { s with connections := mapErase userID s.connections,
           closeCount := closeConn conn s.closeCount }

/-- Manager.Close (server.go lines 311 to 322): set the closed flag, close
every connection currently in the map, leave the map itself untouched and
return nil. -/
def managerClose (s : ManagerState) : Option Err × ManagerState :=
  (none,
   { connections := s.connections
     closed := true
     closeCount := closeAll (s.connections.map Prod.snd) s.closeCount })

/-- Environment behaviour of one connection during a send: the outcome of
SetWriteDeadline and of WriteJSON on it (none means success). -/
structure ConnBehavior where
  setWriteDeadlineErr : Option Err
  writeErr : Option Err

/-- Observable actions sendEvent performs on a connection. -/
inductive Action where
  | setDeadline (c : ConnId) (seconds : Nat)
  | write (c : ConnId) (msg : Msg)
deriving DecidableEq, Repr

/-- Manager.sendEvent (server.go lines 289 to 309): under the read lock,
return nil if the manager is closed or the user has no record; otherwise set
a 10 second write deadline and write the message under the per record
lock.  A deadline failure is returned wrapped with context; the WriteJSON
outcome is returned as is.  The manager state is returned unchanged, as the
function body never writes a manager field. -/
def sendEvent (fx : ConnId → ConnBehavior) (s : ManagerState)
    (userId : UserId) (event : Msg) :
    Option Err × List Action × ManagerState :=
  if s.closed then (none, [], s)
  else
    match mapLookup userId s.connections with
    | none => (none, [], s)
    | some c =>
      match (fx c).setWriteDeadlineErr with
      | some e =>
          (some (Err.wrap "failed to set write deadline" e),
           [Action.setDeadline c 10], s)
      | none =>
          ((fx c).writeErr,
           [Action.setDeadline c 10, Action.write c event], s)

/-- Transfer operation payload (database.TransferOperation fields). -/
structure TransferOperation where
  From : String
  To : String
  Amount : String
  Memo : String
deriving DecidableEq, Repr

/-- The body of a generic operation envelope: either a transfer operation or
an operation of any other kind, identified by its tag. -/
inductive OperationBody where
  | transfer (op : TransferOperation)
  | other (tag : String)
deriving DecidableEq, Repr

/-- Generic operation envelope (database.Operation). -/
structure Operation where
  Body : OperationBody
deriving DecidableEq, Repr

/-- Enrichment content passed alongside an operation; the transfer miner
receives nil and ignores it. -/
structure Content where
  raw : String
deriving DecidableEq, Repr

/-- Typed domain events produced by mining. -/
inductive DomainEvent where
  | transferMade (op : TransferOperation)
deriving DecidableEq, Repr

/-- TransferMadeEventMiner.MineEvent (src/unnamed/part_000 lines 17 to 27):
narrow the operation body to a transfer operation; on failure return the
empty sequence, otherwise one TransferMade event wrapping the body.  The
function is total and returns no error. -/
def MineEvent (operation : Operation) (_content : Option Content) :
    List DomainEvent :=
  match operation.Body with
  | .transfer op => [DomainEvent.transferMade op]
  | .other _ => []

/-- Events of a system execution: a connection being registered by the Bind
handler goroutine for a user, a running reader goroutine observing a read
failure, and Manager.Close being called. -/
inductive Event where
  | openEv (u : UserId) (c : ConnId)
  | readFailEv (u : UserId) (c : ConnId)
  | shutdownEv
deriving DecidableEq, Repr

/-- Execution state: the manager state, the set of running reader goroutines
(user and connection each was started for), and the connection identifiers
already used. -/
structure SysState where
  mgr : ManagerState
  readers : List (UserId × ConnId)
  used : List ConnId

/-- Effect of one event on the execution state.  A registration on an open
manager starts a reader goroutine for that user and connection; on a closed
manager the goroutine returns at once and no reader runs.  A read failure
runs the deletion branch and ends that reader.  Shutdown runs
Manager.Close. -/
def stepEv (s : SysState) : Event → SysState
  | .openEv u c =>
    if s.mgr.closed then
      { s with mgr := bindRegister u c s.mgr, used := c :: s.used }
    else
      { mgr := bindRegister u c s.mgr,
        readers := (u, c) :: s.readers,
        used := c :: s.used }
  | .readFailEv u c =>
      { s with mgr := readerOnFailure u c s.mgr,
               readers := s.readers.erase (u, c) }
  | .shutdownEv => { s with mgr := (managerClose s.mgr).2 }

/-- Whether an event can occur in a state: a registration uses a fresh
connection object; a read failure needs its reader goroutine to be running
(the remote side may disconnect at any time, and a closed connection also
fails the read); shutdown may happen at any time. -/
def validStep (s : SysState) : Event → Bool
  | .openEv _ c => !(s.used.contains c)
  | .readFailEv u c => s.readers.contains (u, c)
  | .shutdownEv => true

/-- Whether a sequence of events is a reachable execution from a state. -/
def validTrace (s : SysState) : List Event → Bool
  | [] => true
  | e :: rest => validStep s e && validTrace (stepEv s e) rest

/-- Run a sequence of events from a state. -/
def runTrace (s : SysState) : List Event → SysState
  | [] => s
  | e :: rest => runTrace (stepEv s e) rest

/-- The initial execution state: empty map, manager open, no connection ever
used or closed, no reader running. -/
def initState : SysState :=
  { mgr := { connections := [], closed := false, closeCount := fun _ => 0 },
    readers := [], used := [] }

theorem mapLookup_mapErase (k : UserId) (m : List (UserId × ConnId)) :
    mapLookup k (mapErase k m) = none := by
  induction m with
  | nil => rfl
  | cons p rest ih =>
    obtain ⟨k2, v⟩ := p
    by_cases h : k2 = k
    · simp [mapErase, h, ih]
    · simp [mapErase, mapLookup, h, ih]

theorem mapLookup_mapInsert_self (k : UserId) (v : ConnId)
    (m : List (UserId × ConnId)) :
    mapLookup k (mapInsert k v m) = some v := by
  simp [mapInsert, mapLookup]

theorem countKey_mapErase (k : UserId) (m : List (UserId × ConnId)) :
    countKey k (mapErase k m) = 0 := by
  induction m with
  | nil => rfl
  | cons p rest ih =>
    obtain ⟨k2, v⟩ := p
    by_cases h : k2 = k
    · simp [mapErase, h, ih]
    · simp [mapErase, countKey, h, ih]

theorem countKey_mapInsert (k : UserId) (v : ConnId)
    (m : List (UserId × ConnId)) :
    countKey k (mapInsert k v m) = 1 := by
  simp [mapInsert, countKey, countKey_mapErase]

theorem closeConn_le (c c2 : ConnId) (counts : ConnId → Nat) :
    counts c2 ≤ closeConn c counts c2 := by
  unfold closeConn
  by_cases h : c2 = c <;> simp [h]

theorem closeConn_self (c : ConnId) (counts : ConnId → Nat) :
    closeConn c counts c = counts c + 1 := by
  simp [closeConn]

theorem closeAll_mono (cs : List ConnId) (counts : ConnId → Nat) (c : ConnId) :
    counts c ≤ closeAll cs counts c := by
  induction cs generalizing counts with
  | nil => exact Nat.le_refl _
  | cons x rest ih =>
    exact Nat.le_trans (closeConn_le x c counts) (ih (closeConn x counts))

theorem closeAll_mem (cs : List ConnId) (counts : ConnId → Nat) (c : ConnId)
    (h : c ∈ cs) : counts c + 1 ≤ closeAll cs counts c := by
  induction cs generalizing counts with
  | nil => cases h
  | cons x rest ih =>
    rcases List.mem_cons.mp h with h1 | h2
    · subst h1
      calc counts c + 1 = closeConn c counts c := (closeConn_self c counts).symm
        _ ≤ closeAll rest (closeConn c counts) c :=
            closeAll_mono rest (closeConn c counts) c
    · calc counts c + 1 ≤ closeConn x counts c + 1 :=
            Nat.add_le_add_right (closeConn_le x c counts) 1
        _ ≤ closeAll rest (closeConn x counts) c := ih (closeConn x counts) h2

theorem closeAll_not_mem (cs : List ConnId) (counts : ConnId → Nat)
    (c : ConnId) (h : c ∉ cs) : closeAll cs counts c = counts c := by
  induction cs generalizing counts with
  | nil => rfl
  | cons x rest ih =>
    have hx : c ≠ x := fun he => h (he ▸ List.mem_cons_self x rest)
    have hr : c ∉ rest := fun hm => h (List.mem_cons_of_mem x hm)
    calc closeAll (x :: rest) counts c
        = closeAll rest (closeConn x counts) c := rfl
      _ = closeConn x counts c := ih (closeConn x counts) hr
      _ = counts c := by simp [closeConn, hx]

theorem mapLookup_mem_values (k : UserId) (m : List (UserId × ConnId))
    (c : ConnId) (h : mapLookup k m = some c) : c ∈ m.map Prod.snd := by
  induction m with
  | nil => cases h
  | cons p rest ih =>
    obtain ⟨k2, v⟩ := p
    by_cases hk : k2 = k
    · simp [mapLookup, hk] at h
      simp [h]
    · simp [mapLookup, hk] at h
      simp [ih h]

theorem bindRegister_closeCount_mono (u : UserId) (c2 : ConnId)
    (s : ManagerState) (c : ConnId) :
    s.closeCount c ≤ (bindRegister u c2 s).closeCount c := by
  unfold bindRegister
  split
  · exact closeConn_le c2 c s.closeCount
  · split
    · exact closeConn_le _ c s.closeCount
    · exact Nat.le_refl _

theorem stepEv_closeCount_mono (s : SysState) (e : Event) (c : ConnId) :
    s.mgr.closeCount c ≤ (stepEv s e).mgr.closeCount c := by
  cases e with
  | openEv u c2 =>
    simp only [stepEv]
    split
    · exact bindRegister_closeCount_mono u c2 s.mgr c
    · exact bindRegister_closeCount_mono u c2 s.mgr c
  | readFailEv u c2 =>
    simp only [stepEv]
    exact closeConn_le c2 c s.mgr.closeCount
  | shutdownEv =>
    simp only [stepEv]
    exact closeAll_mono _ s.mgr.closeCount c

theorem runTrace_closeCount_mono (t : List Event) (s : SysState) (c : ConnId) :
    s.mgr.closeCount c ≤ (runTrace s t).mgr.closeCount c := by
  induction t generalizing s with
  | nil => exact Nat.le_refl _
  | cons e rest ih =>
    exact Nat.le_trans (stepEv_closeCount_mono s e c) (ih (stepEv s e))

theorem runTrace_readFail_closed (t : List Event) (s : SysState) (u : UserId)
    (c : ConnId) (hm : Event.readFailEv u c ∈ t) :
    1 ≤ (runTrace s t).mgr.closeCount c := by
  induction t generalizing s with
  | nil => cases hm
  | cons e rest ih =>
    rcases List.mem_cons.mp hm with he | hr
    · subst he
      have h1 : 1 ≤ (stepEv s (Event.readFailEv u c)).mgr.closeCount c := by
        show 1 ≤ closeConn c s.mgr.closeCount c
        rw [closeConn_self]
        exact Nat.succ_le_succ (Nat.zero_le _)
      exact Nat.le_trans h1
        (runTrace_closeCount_mono rest (stepEv s (Event.readFailEv u c)) c)
    · exact ih (stepEv s e) hr

/-- A manager with one open connection, number 5, for user alice. -/
def sampleMgr : ManagerState :=
  { connections := [("alice", 5)], closed := false, closeCount := fun _ => 0 }

/-- A manager that was shut down while alice was connected. -/
def sampleClosedMgr : ManagerState :=
  { connections := [("alice", 5)], closed := true, closeCount := fun _ => 1 }

/-- Connection behaviour where every operation succeeds. -/
def sampleFx : ConnId → ConnBehavior :=
  fun _ => { setWriteDeadlineErr := none, writeErr := none }

/-- Connection behaviour where the deadline succeeds and WriteJSON fails. -/
def writeFailFx : ConnId → ConnBehavior :=
  fun _ => { setWriteDeadlineErr := none, writeErr := some (Err.base "write failed") }

/-- Claim C1, counterexample.  The claim says a reader that observes a read
failure removes the entry of its user only if the mapped record is still its
own connection, so that a record inserted by a newer registration is never
removed by the older reader.  In the reachable execution below, alice
registers connection 1, a newer registration replaces it with connection 2,
and then the reader of connection 1 observes a read failure (which eviction
itself provokes by closing connection 1): the deletion in the failure branch
is unconditional, so the entry holding connection 2 is removed. -/
theorem claim_C1_counterexample :
    validTrace initState
      [Event.openEv "alice" 1, Event.openEv "alice" 2,
       Event.readFailEv "alice" 1] = true ∧
    mapLookup "alice"
      (runTrace initState
        [Event.openEv "alice" 1, Event.openEv "alice" 2]).mgr.connections
      = some 2 ∧
    mapLookup "alice"
      (runTrace initState
        [Event.openEv "alice" 1, Event.openEv "alice" 2,
         Event.readFailEv "alice" 1]).mgr.connections
      = none := by decide

/-- Claim C1 (amended): when the read loop of a reader started for a given
user and connection observes a failure, the failure branch removes the entry
of that user from the map unconditionally, whatever connection the entry
currently holds, and the reader closes its own connection; in particular a
record inserted by a newer registration for the same user is removed by the
older reader. -/
theorem claim_C1 (s : ManagerState) (u : UserId) (c : ConnId) :
    mapLookup u (readerOnFailure u c s).connections = none ∧
    (readerOnFailure u c s).closeCount c = s.closeCount c + 1 :=
  ⟨mapLookup_mapErase u s.connections, closeConn_self c s.closeCount⟩

/-- Claim C2, counterexample.  The claim says every connection channel is
closed exactly once.  In the reachable execution below, connection 1 of bob
is closed twice: once by the eviction in the newer registration, and a
second time by the deferred close that runs when the evicted reader exits
its read loop. -/
theorem claim_C2_counterexample :
    validTrace initState
      [Event.openEv "bob" 1, Event.openEv "bob" 2,
       Event.readFailEv "bob" 1] = true ∧
    (runTrace initState
      [Event.openEv "bob" 1, Event.openEv "bob" 2,
       Event.readFailEv "bob" 1]).mgr.closeCount 1 = 2 := by decide

/-- Claim C2 (amended): a connection channel is closed at least once by each
of the terminating paths it undergoes, not exactly once overall.  In every
execution, a connection whose reader observed a read failure ends up closed;
a registration that evicts an existing record closes the evicted connection;
and shutdown closes every connection currently in the map.  A channel that
undergoes more than one of these paths, such as an evicted connection whose
reader then exits, is closed more than once. -/
theorem claim_C2 :
    (∀ (t : List Event) (u : UserId) (c : ConnId),
       validTrace initState t = true → Event.readFailEv u c ∈ t →
       1 ≤ (runTrace initState t).mgr.closeCount c) ∧
    (∀ (s : ManagerState) (u : UserId) (cNew cOld : ConnId),
       s.closed = false → mapLookup u s.connections = some cOld →
       (bindRegister u cNew s).closeCount cOld = s.closeCount cOld + 1) ∧
    (∀ (s : ManagerState) (c : ConnId),
       c ∈ s.connections.map Prod.snd →
       1 ≤ (managerClose s).2.closeCount c) := by
  refine ⟨fun t u c _ hm => runTrace_readFail_closed t initState u c hm, ?_, ?_⟩
  · intro s u cNew cOld hcl hlk
    simp [bindRegister, hcl, hlk, closeConn_self]
  · intro s c hmem
    exact Nat.le_trans (Nat.succ_le_succ (Nat.zero_le _))
      (closeAll_mem _ s.closeCount c hmem)

/-- Witness for claim C2 at concrete inputs. -/
theorem claim_C2_witness :
    1 ≤ (runTrace initState
          [Event.openEv "bob" 3, Event.readFailEv "bob" 3]).mgr.closeCount 3 ∧
    1 ≤ (managerClose sampleMgr).2.closeCount 5 :=
  ⟨claim_C2.1 [Event.openEv "bob" 3, Event.readFailEv "bob" 3] "bob" 3
      (by decide) (by decide),
   claim_C2.2.2 sampleMgr 5 (by decide)⟩

/-- Claim C3: a registration for a user with an existing record, on a manager
that is not closed, closes the connection of the existing record and inserts
the new record, so that afterwards exactly one entry exists for the user and
it holds the newer connection. -/
theorem claim_C3 (s : ManagerState) (u : UserId) (cOld cNew : ConnId)
    (hclosed : s.closed = false)
    (hold : mapLookup u s.connections = some cOld) :
    (bindRegister u cNew s).closeCount cOld = s.closeCount cOld + 1 ∧
    mapLookup u (bindRegister u cNew s).connections = some cNew ∧
    countKey u (bindRegister u cNew s).connections = 1 := by
  refine ⟨?_, ?_, ?_⟩ <;>
    simp [bindRegister, hclosed, hold, closeConn_self,
      mapLookup_mapInsert_self, countKey_mapInsert]

/-- Witness for claim C3: alice is connected over connection 5, a new
connection 7 arrives. -/
theorem claim_C3_witness :
    (bindRegister "alice" 7 sampleMgr).closeCount 5
      = sampleMgr.closeCount 5 + 1 ∧
    mapLookup "alice" (bindRegister "alice" 7 sampleMgr).connections
      = some 7 ∧
    countKey "alice" (bindRegister "alice" 7 sampleMgr).connections = 1 :=
  claim_C3 sampleMgr "alice" 5 7 rfl rfl

/-- Claim C4: sending to a user that has no record in the map returns nil and
performs no action on any connection, whatever the closed flag is. -/
theorem claim_C4 (fx : ConnId → ConnBehavior) (s : ManagerState) (u : UserId)
    (m : Msg) (h : mapLookup u s.connections = none) :
    sendEvent fx s u m = (none, [], s) := by
  by_cases hc : s.closed <;> simp [sendEvent, hc, h]

/-- Witness for claim C4: carol never connected. -/
theorem claim_C4_witness :
    sendEvent sampleFx sampleMgr "carol" "hello" = (none, [], sampleMgr) :=
  claim_C4 sampleFx sampleMgr "carol" "hello" (by decide)

/-- Claim C5: after Manager.Close the closed flag is set, every connection
that was in the map has been closed, a later registration inserts nothing
into the map, a later send is a success no-op, and a second Manager.Close
leaves the map, the flag and the closedness of every connection as they
were. -/
theorem claim_C5 (s : ManagerState) :
    (managerClose s).2.closed = true ∧
    (∀ (u : UserId) (c : ConnId), mapLookup u s.connections = some c →
       1 ≤ (managerClose s).2.closeCount c) ∧
    (∀ (u : UserId) (cNew : ConnId),
       (bindRegister u cNew (managerClose s).2).connections
         = (managerClose s).2.connections) ∧
    (∀ (fx : ConnId → ConnBehavior) (u : UserId) (m : Msg),
       sendEvent fx (managerClose s).2 u m = (none, [], (managerClose s).2)) ∧
    (managerClose (managerClose s).2).2.connections
      = (managerClose s).2.connections ∧
    (managerClose (managerClose s).2).2.closed = (managerClose s).2.closed ∧
    (∀ c : ConnId, 0 < (managerClose (managerClose s).2).2.closeCount c ↔
       0 < (managerClose s).2.closeCount c) := by
  refine ⟨rfl, ?_, fun u cNew => rfl, fun fx u m => rfl, rfl, rfl, ?_⟩
  · intro u c h
    exact Nat.le_trans (Nat.succ_le_succ (Nat.zero_le _))
      (closeAll_mem _ s.closeCount c (mapLookup_mem_values u s.connections c h))
  · intro c
    constructor
    · intro hpos
      by_cases hc : c ∈ s.connections.map Prod.snd
      · exact Nat.lt_of_lt_of_le (Nat.succ_pos _)
          (closeAll_mem _ s.closeCount c hc)
      · have h2 : (managerClose (managerClose s).2).2.closeCount c
            = (managerClose s).2.closeCount c :=
          closeAll_not_mem ((managerClose s).2.connections.map Prod.snd)
            (managerClose s).2.closeCount c hc
        exact h2 ▸ hpos
    · intro hpos
      exact Nat.lt_of_lt_of_le hpos (closeAll_mono _ _ c)

/-- Witness for claim C5 on a manager with alice connected over
connection 5. -/
theorem claim_C5_witness :
    (managerClose sampleMgr).2.closed = true ∧
    1 ≤ (managerClose sampleMgr).2.closeCount 5 :=
  ⟨(claim_C5 sampleMgr).1, (claim_C5 sampleMgr).2.1 "alice" 5 (by decide)⟩

/-- Claim C6: MineEvent of the transfer miner returns the empty sequence when
the operation body is of any other kind, and exactly one TransferMade event
wrapping the very transfer payload of the input when the body is a transfer
operation; the function is total, so it never errors. -/
theorem claim_C6 (operation : Operation) (content : Option Content) :
    (∀ tag : String, operation.Body = OperationBody.other tag →
       MineEvent operation content = []) ∧
    (∀ t : TransferOperation, operation.Body = OperationBody.transfer t →
       MineEvent operation content = [DomainEvent.transferMade t]) := by
  constructor
  · intro tag h; simp [MineEvent, h]
  · intro t h; simp [MineEvent, h]

/-- Transfer operation used by the witness of claim C6. -/
def sampleTransfer : TransferOperation :=
  { From := "bob", To := "alice", Amount := "5.000 STEEM", Memo := "hi" }

/-- Witness for claim C6 on a concrete transfer operation and a concrete
operation of another kind. -/
theorem claim_C6_witness :
    MineEvent { Body := OperationBody.transfer sampleTransfer } none
      = [DomainEvent.transferMade sampleTransfer] ∧
    MineEvent { Body := OperationBody.other "vote" } none = [] :=
  ⟨(claim_C6 { Body := OperationBody.transfer sampleTransfer } none).2
      sampleTransfer rfl,
   (claim_C6 { Body := OperationBody.other "vote" } none).1 "vote" rfl⟩

/-- Claim C7, counterexample.  The claim says that when the write itself
fails, the send returns a failure wrapped with context.  With alice
connected over connection 5 and a connection on which WriteJSON fails with a
base error, sendEvent returns that base error itself, which carries no
wrapping context. -/
theorem claim_C7_counterexample :
    (sendEvent writeFailFx sampleMgr "alice" "hello").1
      = some (Err.base "write failed") ∧
    Err.isWrapped (Err.base "write failed") = false := by decide

/-- Claim C7 (amended): for a send to a connected user on a manager that is
not closed, a write deadline of 10 seconds is set before any write; if
setting the deadline fails, the send returns that failure wrapped with the
context message, and no write happens; if the deadline is set, the outcome
of the write is returned to the caller as it is, without wrapping. -/
theorem claim_C7 (fx : ConnId → ConnBehavior) (s : ManagerState) (u : UserId)
    (m : Msg) (c : ConnId)
    (hclosed : s.closed = false) (hc : mapLookup u s.connections = some c) :
    ((fx c).setWriteDeadlineErr = none →
       sendEvent fx s u m =
         ((fx c).writeErr,
          [Action.setDeadline c 10, Action.write c m], s)) ∧
    (∀ e : Err, (fx c).setWriteDeadlineErr = some e →
       sendEvent fx s u m =
         (some (Err.wrap "failed to set write deadline" e),
          [Action.setDeadline c 10], s)) := by
  constructor
  · intro h; simp [sendEvent, hclosed, hc, h]
  · intro e h; simp [sendEvent, hclosed, hc, h]

/-- Witness for claim C7: alice connected over connection 5, WriteJSON
fails. -/
theorem claim_C7_witness :
    sendEvent writeFailFx sampleMgr "alice" "hello" =
      (some (Err.base "write failed"),
       [Action.setDeadline 5 10, Action.write 5 "hello"], sampleMgr) :=
  (claim_C7 writeFailFx sampleMgr "alice" "hello" 5 rfl rfl).1 rfl

/-- Claim C8: a registration arriving on a closed manager closes the new raw
connection and returns with the map and the closed flag unchanged. -/
theorem claim_C8 (s : ManagerState) (u : UserId) (c : ConnId)
    (h : s.closed = true) :
    (bindRegister u c s).connections = s.connections ∧
    (bindRegister u c s).closed = true ∧
    (bindRegister u c s).closeCount c = s.closeCount c + 1 := by
  refine ⟨?_, ?_, ?_⟩ <;> simp [bindRegister, h, closeConn_self]

/-- Witness for claim C8 on a manager that was shut down. -/
theorem claim_C8_witness :
    (bindRegister "dave" 9 sampleClosedMgr).connections
      = sampleClosedMgr.connections ∧
    (bindRegister "dave" 9 sampleClosedMgr).closed = true ∧
    (bindRegister "dave" 9 sampleClosedMgr).closeCount 9
      = sampleClosedMgr.closeCount 9 + 1 :=
  claim_C8 sampleClosedMgr "dave" 9 rfl

/-- Claim C9: a send never modifies the manager state; the map and the
closed flag after any send, whatever its outcome, are the state it started
from. -/
theorem claim_C9 (fx : ConnId → ConnBehavior) (s : ManagerState) (u : UserId)
    (m : Msg) : (sendEvent fx s u m).2.2 = s := by
  by_cases hc : s.closed
  · simp [sendEvent, hc]
  · cases h : mapLookup u s.connections with
    | none => simp [sendEvent, hc, h]
    | some c =>
      cases he : (fx c).setWriteDeadlineErr with
      | none => simp [sendEvent, hc, h, he]
      | some e => simp [sendEvent, hc, h, he]

/-- Claim C10: Manager.Close closes every connection held in the map, leaves
the map itself untouched (every key present before is present after, with
the same record), and returns nil. -/
theorem claim_C10 (s : ManagerState) :
    (managerClose s).1 = none ∧
    (managerClose s).2.connections = s.connections ∧
    (∀ (u : UserId) (c : ConnId), mapLookup u s.connections = some c →
       1 ≤ (managerClose s).2.closeCount c) := by
  refine ⟨rfl, rfl, ?_⟩
  intro u c h
  exact Nat.le_trans (Nat.succ_le_succ (Nat.zero_le _))
    (closeAll_mem _ s.closeCount c (mapLookup_mem_values u s.connections c h))

/-- Witness for claim C10 on a manager with alice connected over
connection 5. -/
theorem claim_C10_witness :
    (managerClose sampleMgr).1 = none ∧
    1 ≤ (managerClose sampleMgr).2.closeCount 5 :=
  ⟨(claim_C10 sampleMgr).1, (claim_C10 sampleMgr).2.2 "alice" 5 (by decide)⟩

end Steemwatch
